import Mathlib

/-!
Verification of the MJR playback engine implemented in
`src/plugins/janus_lua_extra.c`: the two-pass recording parser
(`janus_play_get_frames`), the RTP continuity rewriter
(`janus_rtp_header_update2`), the reference-time bookkeeping of the playout
loop (`janus_play_playout_thread`) and its control-plane event strings.

The embedding is byte-level: a recording file is a `List Nat` of byte values,
`fread` returns the bytes actually available (a short read past end of file
returns fewer bytes and leaves the rest of the C buffer untouched, which the
model reproduces by overlaying the bytes read onto the previous buffer
contents).  Machine integers are modelled as `Nat`/`Int` with explicit
reductions modulo 2^16 / 2^32 exactly where the C types wrap.
-/

namespace JanusPlay

/-- Model of `fread` at an absolute position: the bytes actually delivered,
which is fewer than `k` when the file ends early.  Stored values are bytes,
hence the reduction modulo 256. -/
def fread (f : List Nat) (pos k : Nat) : List Nat :=
  ((f.drop pos).take k).map (fun b => b % 256)

/-- Effect of `fread` on the C destination buffer: the bytes read overwrite
the front of the buffer, the tail keeps its previous (stale) contents. -/
def bufWrite (buf bytesRead : List Nat) : List Nat :=
  bytesRead ++ buf.drop bytesRead.length

/-- `ntohs` of two big-endian bytes. -/
def ntohs2 (b0 b1 : Nat) : Nat := b0 * 256 + b1

/-- `ntohl` of four big-endian bytes. -/
def ntohl4 (b0 b1 b2 b3 : Nat) : Nat := ((b0 * 256 + b1) * 256 + b2) * 256 + b3

/-- Modelled from the spec: `janus_play_frame_packet` is declared in
`janus_lua_data.h`, which is not part of this tree; the fields and their
widths (`seq` 16-bit, `ts` 64-bit, `len` 16-bit, `offset` a byte position)
follow the spec's frame-descriptor data model and the uses in
`janus_lua_extra.c`.  The `next`/`prev` links are represented by the order of
a Lean list. -/
structure janus_play_frame_packet where
  seq : Nat
  ts : Nat
  len : Nat
  offset : Nat
deriving Repr, DecidableEq

/-- The tie-break test of the pass-2 insertion walk, translated from
`janus_play_get_frames` (the two `tmp->seq`/`p->seq` comparisons with the
10000 wraparound tolerance): `seqOrderedB a b` says a descriptor with
sequence number `a` may be followed by one with sequence number `b`. -/
def seqOrderedB (a b : Nat) : Bool :=
  (decide (a < b) && decide (((a : Int) - (b : Int)).natAbs < 10000)) ||
  (decide (b < a) && decide (((a : Int) - (b : Int)).natAbs > 10000))

/-- The full insertion test of the pass-2 walk: insert the new packet `p`
right after `tmp` when this holds (translated from the three `if` branches of
the backward walk in `janus_play_get_frames`). -/
def frameLtB (tmp p : janus_play_frame_packet) : Bool :=
  decide (tmp.ts < p.ts) || (decide (tmp.ts = p.ts) && seqOrderedB tmp.seq p.seq)

/-- The backward walk of the pass-2 insertion, expressed on the reversed
chain: scanning from the tail, the new packet is inserted right after the
first element `tmp` with `frameLtB tmp p`; if the walk exhausts the list the
packet is prepended (ends up last in the reversed order). -/
def revInsert (p : janus_play_frame_packet) :
    List janus_play_frame_packet → List janus_play_frame_packet
  | [] => [p]
  | x :: xs => if frameLtB x p then p :: x :: xs else x :: revInsert p xs

/-- Insertion of a new frame packet into the doubly linked chain of
`janus_play_get_frames`, with the chain represented front-to-back. -/
def insertFrame (l : List janus_play_frame_packet) (p : janus_play_frame_packet) :
    List janus_play_frame_packet :=
  (revInsert p l.reverse).reverse

/-- The 64-bit timestamp computed for a descriptor in pass 2 of
`janus_play_get_frames` from the pass-1 scan results (`reset`, `first_ts`)
and the raw 32-bit RTP timestamp. -/
def computeTs (reset first_ts raw : Nat) : Nat :=
  if reset = 0 then raw
  else if first_ts < raw then raw
  else 4294967296 + raw

/-- The three scan variables of pass 1 of `janus_play_get_frames`. -/
structure ScanState where
  first_ts : Nat
  last_ts : Nat
  reset : Nat
deriving Repr, DecidableEq

/-- One pass-1 timestamp observation (`janus_play_get_frames`, the block
after the 16-byte RTP header read): sets `first_ts` on the first packet
(while `last_ts == 0`), detects a timestamp reset on a backward jump larger
than 2*10^9, refines `reset` on a smaller forward timestamp, and always
records `last_ts`. -/
def pass1Step (s : ScanState) (t : Nat) : ScanState :=
  if s.last_ts = 0 then
    { first_ts := if 1000000 < t then t - 1000000 else t, last_ts := t, reset := s.reset }
  else if t < s.last_ts then
    if 2000000000 < s.last_ts - t then
      { first_ts := s.first_ts, last_ts := t, reset := t }
    else
      { first_ts := s.first_ts, last_ts := t, reset := s.reset }
  else if t < s.reset then
    { first_ts := s.first_ts, last_ts := t, reset := t }
  else
    { first_ts := s.first_ts, last_ts := t, reset := s.reset }

/-- State carried across the pass-1 record loop of `janus_play_get_frames`:
the `parsed_header` flag, the scan variables, the C `prebuffer` contents, the
two network-order bytes of the `len` variable, and two ghost counters
(`legacyHdr`, `infoHdr`) counting how often each header branch fired, plus a
ghost list `seenTs` of every timestamp handed to `pass1Step`. -/
structure Pass1State where
  parsed_header : Bool
  scan : ScanState
  buf : List Nat
  lenHi : Nat
  lenLo : Nat
  legacyHdr : Nat
  infoHdr : Nat
  seenTs : List Nat
deriving Repr, DecidableEq

/-- First (high) byte taken by the 2-byte `fread` into `len`, keeping the
stale value on a short read. -/
def readLenHi (old : Nat) (rl : List Nat) : Nat :=
  if 1 ≤ rl.length then rl.getD 0 0 else old

/-- Second (low) byte taken by the 2-byte `fread` into `len`, keeping the
stale value on a short read. -/
def readLenLo (old : Nat) (rl : List Nat) : Nat :=
  if 2 ≤ rl.length then rl.getD 1 0 else old

/-- One iteration of the pass-1 record loop of `janus_play_get_frames`,
starting at record offset `offset`.  Returns `none` where the C code returns
`NULL` (invalid tag, unsupported legacy media type, bad info header), and
otherwise the next record offset together with the updated state.  `infoOk`
abstracts the external JSON library: it decides whether `json_loads` plus the
`t`/`c`/`s`/`u` field checks accept the info payload bytes. -/
def pass1Iter (infoOk : List Nat → Bool) (f : List Nat) (offset : Nat)
    (st : Pass1State) : Option (Nat × Pass1State) :=
  let r8 := fread f offset 8
  let buf := bufWrite st.buf r8
  if r8.length ≠ 8 ∨ buf.getD 0 0 ≠ 77 then none
  else
    let rl := fread f (offset + 8) 2
    let lenHi := readLenHi st.lenHi rl
    let lenLo := readLenLo st.lenLo rl
    let len := ntohs2 lenHi lenLo
    let pos := offset + 8 + rl.length
    if buf.getD 1 0 = 69 then
      if len = 5 ∧ st.parsed_header = false then
        let r5 := fread f pos 5
        let buf2 := bufWrite buf r5
        if buf2.getD 0 0 = 118 ∨ buf2.getD 0 0 = 97 then
          some (offset + 10 + len,
            { st with parsed_header := true, buf := buf2, lenHi := lenHi, lenLo := lenLo,
                      legacyHdr := st.legacyHdr + 1 })
        else none
      else if len < 12 then
        some (offset + 10 + len, { st with buf := buf, lenHi := lenHi, lenLo := lenLo })
      else
        let r16 := fread f pos 16
        let buf3 := bufWrite buf r16
        let t := ntohl4 (buf3.getD 4 0) (buf3.getD 5 0) (buf3.getD 6 0) (buf3.getD 7 0)
        some (offset + 10 + len,
          { st with scan := pass1Step st.scan t, buf := buf3, lenHi := lenHi, lenLo := lenLo,
                    seenTs := st.seenTs ++ [t] })
    else if buf.getD 1 0 = 74 then
      if 0 < len ∧ st.parsed_header = false then
        let rp := fread f pos len
        let buf2 := (bufWrite buf rp).set len 0
        if infoOk rp then
          let r16 := fread f (pos + rp.length) 16
          let buf3 := bufWrite buf2 r16
          let t := ntohl4 (buf3.getD 4 0) (buf3.getD 5 0) (buf3.getD 6 0) (buf3.getD 7 0)
          some (offset + 10 + len,
            { st with parsed_header := true, scan := pass1Step st.scan t, buf := buf3,
                      lenHi := lenHi, lenLo := lenLo, infoHdr := st.infoHdr + 1,
                      seenTs := st.seenTs ++ [t] })
        else none
      else
        let r16 := fread f pos 16
        let buf3 := bufWrite buf r16
        let t := ntohl4 (buf3.getD 4 0) (buf3.getD 5 0) (buf3.getD 6 0) (buf3.getD 7 0)
        some (offset + 10 + len,
          { st with scan := pass1Step st.scan t, buf := buf3, lenHi := lenHi, lenLo := lenLo,
                    seenTs := st.seenTs ++ [t] })
    else none

/-- The pass-1 record loop (`while(offset < fsize)`), driven by a fuel
counter; every iteration advances the offset by at least 10, so fuel
`f.length + 1` never runs out when started at offset 0. -/
def pass1Loop (infoOk : List Nat → Bool) (f : List Nat) :
    Nat → Nat → Pass1State → Option Pass1State
  | 0, _, st => some st
  | fuel + 1, offset, st =>
    if offset < f.length then
      match pass1Iter infoOk f offset st with
      | none => none
      | some (o', st') => pass1Loop infoOk f fuel o' st'
    else some st

/-- Initial pass-1 state: `parsed_header = FALSE`, zeroed scan variables, the
`memset` prebuffer (only its first 16 bytes are ever consulted), `len = 0`. -/
def initPass1 : Pass1State :=
  { parsed_header := false, scan := ⟨0, 0, 0⟩, buf := List.replicate 16 0,
    lenHi := 0, lenLo := 0, legacyHdr := 0, infoHdr := 0, seenTs := [] }

/-- State carried across the pass-2 record loop of `janus_play_get_frames`:
the `prebuffer`, the `len` bytes (both persist from pass 1) and the ordered
chain built so far. -/
structure Pass2State where
  buf : List Nat
  lenHi : Nat
  lenLo : Nat
  chain : List janus_play_frame_packet
deriving Repr, DecidableEq

/-- One iteration of the pass-2 record loop of `janus_play_get_frames`.
Pass 2 performs no tag validation: it reads the 8-byte tag (writing a NUL at
buffer index 8), the length, skips records whose second tag byte is `'J'` or
whose length is below 12, and otherwise reads the 16-byte RTP header and
inserts a descriptor into the ordered chain.  `none` models the `break` taken
when `fread` is believed to have failed (`bytes < 0`, which never holds since
`fread` returns a count). -/
def pass2Iter (f : List Nat) (reset first_ts offset : Nat) (st : Pass2State) :
    Option (Nat × Pass2State) :=
  let r8 := fread f offset 8
  let buf := (bufWrite st.buf r8).set 8 0
  let rl := fread f (offset + r8.length) 2
  let lenHi := readLenHi st.lenHi rl
  let lenLo := readLenLo st.lenLo rl
  let len := ntohs2 lenHi lenLo
  let pos := offset + r8.length + rl.length
  if buf.getD 1 0 = 74 ∨ len < 12 then
    some (offset + 10 + len, { st with buf := buf, lenHi := lenHi, lenLo := lenLo })
  else
    let r16 := fread f pos 16
    let buf3 := bufWrite buf r16
    if (r16.length : Int) < 0 then none
    else
      let p : janus_play_frame_packet :=
        { seq := ntohs2 (buf3.getD 2 0) (buf3.getD 3 0)
          ts := computeTs reset first_ts
                  (ntohl4 (buf3.getD 4 0) (buf3.getD 5 0) (buf3.getD 6 0) (buf3.getD 7 0))
          len := len
          offset := offset + 10 }
      some (offset + 10 + len,
        { buf := buf3, lenHi := lenHi, lenLo := lenLo, chain := insertFrame st.chain p })

/-- The pass-2 record loop (`while(offset < fsize)`); on the (dead) `break`
the chain built so far is returned. -/
def pass2Loop (f : List Nat) (reset first_ts : Nat) :
    Nat → Nat → Pass2State → List janus_play_frame_packet
  | 0, _, st => st.chain
  | fuel + 1, offset, st =>
    if offset < f.length then
      match pass2Iter f reset first_ts offset st with
      | none => st.chain
      | some (o', st') => pass2Loop f reset first_ts fuel o' st'
    else st.chain

/-- `janus_play_get_frames` on the bytes of an already-opened file: pass 1
scans for timestamp resets (propagating its `NULL` returns), pass 2 builds
the ordered chain reusing the same `prebuffer` and `len` variables.  The C
function returns a packet pointer, so an empty chain and a parse failure are
both the `NULL` pointer, modelled as `none`. -/
def janus_play_get_frames (infoOk : List Nat → Bool) (f : List Nat) :
    Option (List janus_play_frame_packet) :=
  match pass1Loop infoOk f (f.length + 1) 0 initPass1 with
  | none => none
  | some st1 =>
    let chain := pass2Loop f st1.scan.reset st1.scan.first_ts (f.length + 1) 0
      { buf := st1.buf, lenHi := st1.lenHi, lenLo := st1.lenLo, chain := [] }
    if chain.isEmpty then none else some chain

/-- Modelled from the spec: `janus_rtp_header` is declared in the gateway's
`rtp.h`, which is not part of this tree; per the spec's RTP model the fixed
header carries a payload type, a 16-bit sequence number, a 32-bit timestamp
and a 32-bit SSRC.  Fields hold the host-order values (the `ntohl`/`htonl`
pairs of the C code cancel at this level). -/
structure janus_rtp_header where
  type : Nat
  seq_number : Nat
  timestamp : Nat
  ssrc : Nat
deriving Repr, DecidableEq

/-- Modelled from the spec: `janus_rtp_switching_context` is declared in the
gateway's `rtp.h`, which is not part of this tree; the per-direction fields
follow the spec's continuity-context data model, with 32-bit timestamp
fields, 16-bit sequence fields and a 64-bit monotonic time. -/
structure janus_rtp_switching_context where
  a_last_ssrc : Nat
  a_last_ts : Nat
  a_base_ts : Nat
  a_base_ts_prev : Nat
  a_prev_ts : Nat
  a_last_seq : Nat
  a_base_seq : Nat
  a_base_seq_prev : Nat
  a_prev_seq : Nat
  a_last_time : Nat
  a_seq_reset : Bool
  a_new_ssrc : Bool
  v_last_ssrc : Nat
  v_last_ts : Nat
  v_base_ts : Nat
  v_base_ts_prev : Nat
  v_prev_ts : Nat
  v_last_seq : Nat
  v_base_seq : Nat
  v_base_seq_prev : Nat
  v_prev_seq : Nat
  v_last_time : Nat
  v_seq_reset : Bool
  v_new_ssrc : Bool
deriving Repr, DecidableEq

/-- Reduction of an intermediate signed value to a 32-bit unsigned store. -/
def u32 (x : Int) : Nat := (x % 4294967296).toNat

/-- Reduction of an intermediate signed value to a 16-bit unsigned store. -/
def u16 (x : Int) : Nat := (x % 65536).toNat

/-- `janus_rtp_header_update2` translated from `janus_lua_extra.c`.  `now` is
the value of the external `janus_get_monotonic_time()`; ` step` is accepted
and ignored exactly as in the source.  Returns the rewritten header together
with the updated context.  Note the audio sequence-reset branch writes the
video field `v_base_ts_prev`, exactly as the source does. -/
def janus_rtp_header_update2 (header : janus_rtp_header)
    (context : janus_rtp_switching_context) (video : Bool) ( step : Int) (now : Nat) :
    janus_rtp_header × janus_rtp_switching_context :=
  let ssrc := header.ssrc
  let timestamp := header.timestamp
  let seq := header.seq_number
  if video then
    let c1 :=
      if ssrc ≠ context.v_last_ssrc then
        let c := { context with
          v_last_ssrc := ssrc, v_base_ts_prev := context.v_last_ts,
          v_base_ts := timestamp, v_base_seq_prev := context.v_last_seq,
          v_base_seq := seq }
        let c :=
          if 0 < c.v_last_time then
            let time_diff : Int := ((now : Int) - (c.v_last_time : Int)) * 90 / 1000
            let time_diff := if time_diff = 0 then 1 else time_diff
            { c with v_base_ts_prev := u32 ((c.v_base_ts_prev : Int) + time_diff),
                     v_last_ts := u32 ((c.v_last_ts : Int) + time_diff) }
          else c
        { c with v_new_ssrc := true }
      else context
    let c2 :=
      if c1.v_seq_reset then
        { c1 with v_seq_reset := false, v_base_seq_prev := c1.v_last_seq, v_base_seq := seq,
                  v_base_ts_prev := u32 ((c1.v_last_ts : Int) + 2000) }
      else c1
    let c3 := { c2 with
      v_prev_ts := c2.v_last_ts,
      v_last_ts := u32 ((timestamp : Int) - (c2.v_base_ts : Int) + (c2.v_base_ts_prev : Int)),
      v_prev_seq := c2.v_last_seq,
      v_last_seq := u16 ((seq : Int) - (c2.v_base_seq : Int) + (c2.v_base_seq_prev : Int) + 1),
      v_last_time := now }
    ({ header with timestamp := c3.v_last_ts, seq_number := c3.v_last_seq }, c3)
  else
    let c1 :=
      if ssrc ≠ context.a_last_ssrc then
        let c := { context with
          a_last_ssrc := ssrc, a_base_ts_prev := context.a_last_ts,
          a_base_ts := timestamp, a_base_seq_prev := context.a_last_seq,
          a_base_seq := seq }
        let c :=
          if 0 < c.a_last_time then
            let akhz : Int :=
              if header.type = 0 ∨ header.type = 8 ∨ header.type = 9 then 8 else 48
            let time_diff : Int := ((now : Int) - (c.a_last_time : Int)) * akhz / 1000
            let time_diff := if time_diff = 0 then 1 else time_diff
            { c with a_base_ts_prev := u32 ((c.a_base_ts_prev : Int) + time_diff),
                     a_prev_ts := u32 ((c.a_prev_ts : Int) + time_diff),
                     a_last_ts := u32 ((c.a_last_ts : Int) + time_diff) }
          else c
        { c with a_new_ssrc := true }
      else context
    let c2 :=
      if c1.a_seq_reset then
        { c1 with a_seq_reset := false, a_base_seq_prev := c1.a_last_seq, a_base_seq := seq,
                  v_base_ts_prev := u32 ((c1.v_last_ts : Int) + 2000) }
      else c1
    let c3 := { c2 with
      a_prev_ts := c2.a_last_ts,
      a_last_ts := u32 ((timestamp : Int) - (c2.a_base_ts : Int) + (c2.a_base_ts_prev : Int)),
      a_prev_seq := c2.a_last_seq,
      a_last_seq := u16 ((seq : Int) - (c2.a_base_seq : Int) + (c2.a_base_seq_prev : Int) + 1),
      a_last_time := now }
    ({ header with timestamp := c3.a_last_ts, seq_number := c3.a_last_seq }, c3)

/-- The playout loop calls `janus_rtp_header_update2` once per outgoing audio
packet with `video = 0` and ` step = 960`; this folds a run of such calls,
collecting the rewritten (`a_last_seq`) sequence numbers.  Each input is a
header paired with the monotonic time of its send. -/
def runAudio : janus_rtp_switching_context → List (janus_rtp_header × Nat) → List Nat
  | _, [] => []
  | c, (h, now) :: rest =>
    let r := janus_rtp_header_update2 h c false 960 now
    r.2.a_last_seq :: runAudio r.2 rest

/-- A run of audio packets, all with SSRC `S` and payload type `pt`,
carrying consecutive input sequence numbers `q0, q0+1, ...` reduced mod 2^16,
with arbitrary per-packet timestamps `tsf` and send times `nowf`. -/
def consecutivePackets (S pt : Nat) (tsf nowf : Nat → Nat) :
    Nat → Nat → List (janus_rtp_header × Nat)
  | _, 0 => []
  | q0, n + 1 =>
    ({ type := pt, seq_number := q0 % 65536, timestamp := tsf 0, ssrc := S }, nowf 0) ::
      consecutivePackets S pt (fun i => tsf (i + 1)) (fun i => nowf (i + 1)) (q0 + 1) n

/-- The reference-time update of the playout loop
(`janus_play_playout_thread`, audio branch of a subsequent packet, mirrored
by the video branch): `abefore.tv_usec += ts_diff % 1000000`, a carry into
`tv_sec` when the microsecond field exceeds 10^6, and for gaps of a second or
more `tv_sec += ts_diff / 1000000` together with
`tv_usec -= ts_diff / 1000000`.  `tsDiff` is the already-scaled due interval
`((a.ts - a.prev.ts) * 1000) / akhz` in microseconds, which is nonnegative;
the C `%` and `/` agree with the Euclidean ones used here on the values
reachable in the loop. -/
def janus_play_advance_abefore (sec usec tsDiff : Int) : Int × Int :=
  let usec1 := usec + tsDiff % 1000000
  let sv := if 1000000 < usec1 then (sec + 1, usec1 - 1000000) else (sec, usec1)
  if 0 < tsDiff / 1000000 then (sv.1 + tsDiff / 1000000, sv.2 - tsDiff / 1000000)
  else sv

/-- The event payload pushed by `janus_play_playout_thread` before entering
the pacing loop. -/
def janus_play_start_event : String := "\x7b\"play\": \"start\"\x7d"

/-- The terminal event payload chosen after the pacing loop from the shared
`stop_playing` flag. -/
def janus_play_terminal_event (stop_playing : Bool) : String :=
  if stop_playing then "\x7b\"play\": \"stopped\"\x7d" else "\x7b\"play\": \"ended\"\x7d"

/-- The sequence of event payloads pushed by one successful run of
`janus_play_playout_thread` (one `lua_push_event` before the loop, one after
it), as a function of the `stop_playing` flag value read at loop exit. -/
def janus_play_playout_events (stop_playing_at_exit : Bool) : List String :=
  [janus_play_start_event, janus_play_terminal_event stop_playing_at_exit]

/-! ## Ordering invariant of the pass-2 chain -/

/-- The ordering the spec claims between adjacent chain entries: strictly
increasing `ts`, or equal `ts` with the sequence numbers ordered under the
wraparound rule. -/
def claimOrdered (x y : janus_play_frame_packet) : Prop :=
  x.ts < y.ts ∨ (x.ts = y.ts ∧ seqOrderedB x.seq y.seq = true)

/-- The ordering the insertion walk actually guarantees between adjacent
chain entries: non-decreasing `ts`, and on a tie the later entry is at least
not seq-ordered strictly before the earlier one (equal sequence numbers, or
a wraparound distance of exactly 10000, may appear in either order). -/
def chainOrdered (x y : janus_play_frame_packet) : Prop :=
  x.ts < y.ts ∨ (x.ts = y.ts ∧ seqOrderedB y.seq x.seq = false)

instance : DecidableRel claimOrdered := fun x y =>
  inferInstanceAs (Decidable (x.ts < y.ts ∨ (x.ts = y.ts ∧ seqOrderedB x.seq y.seq = true)))

instance : DecidableRel chainOrdered := fun x y =>
  inferInstanceAs (Decidable (x.ts < y.ts ∨ (x.ts = y.ts ∧ seqOrderedB y.seq x.seq = false)))

lemma seqOrderedB_asymm {a b : Nat} (h : seqOrderedB a b = true) :
    seqOrderedB b a = false := by
  simp only [seqOrderedB, Bool.or_eq_true, Bool.and_eq_true, decide_eq_true_eq,
    Bool.or_eq_false_iff, Bool.and_eq_false_iff, decide_eq_false_iff_not] at h ⊢
  omega

lemma frameLtB_true_chainOrdered {x p : janus_play_frame_packet}
    (h : frameLtB x p = true) : chainOrdered x p := by
  simp only [frameLtB, Bool.or_eq_true, Bool.and_eq_true, decide_eq_true_eq] at h
  rcases h with h | ⟨h1, h2⟩
  · exact Or.inl h
  · exact Or.inr ⟨h1, seqOrderedB_asymm h2⟩

lemma frameLtB_false_chainOrdered {x p : janus_play_frame_packet}
    (h : frameLtB x p = false) : chainOrdered p x := by
  simp only [frameLtB, Bool.or_eq_false_iff, Bool.and_eq_false_iff,
    decide_eq_false_iff_not, Bool.not_eq_true] at h
  obtain ⟨h1, h2⟩ := h
  rcases Nat.lt_trichotomy p.ts x.ts with hlt | heq | hgt
  · exact Or.inl hlt
  · rcases h2 with h2 | h2
    · exact absurd heq.symm h2
    · exact Or.inr ⟨heq, h2⟩
  · exact absurd hgt h1

lemma revInsert_chain (p : janus_play_frame_packet) :
    ∀ m : List janus_play_frame_packet,
      List.Chain' (fun a b => chainOrdered b a) m →
      List.Chain' (fun a b => chainOrdered b a) (revInsert p m)
  | [], _ => List.chain'_singleton p
  | x :: xs, h => by
    rw [revInsert]
    split
    · exact List.chain'_cons.mpr ⟨frameLtB_true_chainOrdered (by assumption), h⟩
    · have hx : frameLtB x p = false := by
        rename_i hc; exact Bool.eq_false_iff.mpr hc
      refine List.chain'_cons'.mpr ⟨?_, revInsert_chain p xs h.tail⟩
      intro z hz
      cases xs with
      | nil =>
        simp only [revInsert, List.head?_cons, Option.mem_def, Option.some.injEq] at hz
        subst hz
        exact frameLtB_false_chainOrdered hx
      | cons y ys =>
        rw [revInsert] at hz
        split at hz <;>
          simp only [List.head?_cons, Option.mem_def, Option.some.injEq] at hz <;> subst hz
        · exact frameLtB_false_chainOrdered hx
        · exact (List.chain'_cons.mp h).1

lemma insertFrame_chain (l : List janus_play_frame_packet)
    (p : janus_play_frame_packet) (h : List.Chain' chainOrdered l) :
    List.Chain' chainOrdered (insertFrame l p) := by
  rw [insertFrame]
  have h' : List.Chain' (fun a b => chainOrdered b a) l.reverse := by
    rw [show (fun a b => chainOrdered b a) = flip chainOrdered from rfl,
      List.chain'_reverse]
    exact h
  have := revInsert_chain p l.reverse h'
  rw [show (fun a b => chainOrdered b a) = flip chainOrdered from rfl] at this
  exact (List.chain'_reverse).mp (by simpa [flip] using this)

lemma mem_revInsert {q p : janus_play_frame_packet} :
    ∀ {m : List janus_play_frame_packet}, q ∈ revInsert p m → q = p ∨ q ∈ m := by
  intro m
  induction m with
  | nil => simp [revInsert]
  | cons x xs ih =>
    rw [revInsert]
    split
    · intro h
      rcases List.mem_cons.mp h with h | h
      · exact Or.inl h
      · exact Or.inr h
    · intro h
      rcases List.mem_cons.mp h with h | h
      · exact Or.inr (List.mem_cons.mpr (Or.inl h))
      · rcases ih h with h | h
        · exact Or.inl h
        · exact Or.inr (List.mem_cons.mpr (Or.inr h))

lemma mem_insertFrame {q p : janus_play_frame_packet}
    {l : List janus_play_frame_packet} (h : q ∈ insertFrame l p) : q = p ∨ q ∈ l := by
  rw [insertFrame, List.mem_reverse] at h
  rcases mem_revInsert h with h | h
  · exact Or.inl h
  · exact Or.inr (List.mem_reverse.mp h)

lemma pass2Iter_chain {f : List Nat} {r ft offset : Nat} {st : Pass2State}
    {o' : Nat} {st' : Pass2State} (h : pass2Iter f r ft offset st = some (o', st')) :
    st'.chain = st.chain ∨ ∃ p, st'.chain = insertFrame st.chain p := by
  simp only [pass2Iter] at h
  split at h
  · cases h
    exact Or.inl rfl
  · split at h
    · cases h
    · cases h
      exact Or.inr ⟨_, rfl⟩

lemma pass2Loop_chain (f : List Nat) (r ft : Nat) :
    ∀ (fuel offset : Nat) (st : Pass2State), List.Chain' chainOrdered st.chain →
      List.Chain' chainOrdered (pass2Loop f r ft fuel offset st)
  | 0, _, _, h => h
  | fuel + 1, offset, st, h => by
    rw [pass2Loop]
    split
    · cases heq : pass2Iter f r ft offset st with
      | none => exact h
      | some v =>
        obtain ⟨o', st'⟩ := v
        apply pass2Loop_chain f r ft fuel o' st'
        rcases pass2Iter_chain heq with h1 | ⟨p, h1⟩
        · rwa [h1]
        · rw [h1]; exact insertFrame_chain _ _ h
    · exact h

/-- C1 (amended): for every input file on which `janus_play_get_frames`
returns a chain, every adjacent pair of descriptors satisfies: the earlier
`ts` is strictly smaller, or the two `ts` are equal and the later descriptor
is not seq-ordered strictly before the earlier one.  (The claim's strict
ordering fails when two frames share `ts` and sequence number, or tie with a
seq distance of exactly 10000.) -/
theorem C1_theorem (infoOk : List Nat → Bool) (f : List Nat)
    (chain : List janus_play_frame_packet)
    (h : janus_play_get_frames infoOk f = some chain) :
    List.Chain' chainOrdered chain := by
  unfold janus_play_get_frames at h
  cases hp : pass1Loop infoOk f (f.length + 1) 0 initPass1 with
  | none => rw [hp] at h; cases h
  | some st1 =>
    rw [hp] at h
    simp only at h
    split at h
    · cases h
    · cases h
      exact pass2Loop_chain _ _ _ _ _ _ List.chain'_nil

/-- A complete two-frame recording with distinct timestamps, used to witness
`C1_theorem`. -/
def fileC1wit : List Nat :=
  [77, 69, 69, 84, 69, 67, 72, 79, 0, 12, 128, 111, 0, 7, 0, 0, 3, 232, 0, 0, 0, 1,
   77, 69, 69, 84, 69, 67, 72, 79, 0, 12, 128, 111, 0, 8, 0, 0, 7, 208, 0, 0, 0, 1]

theorem C1_witness :
    List.Chain' chainOrdered
      [⟨7, 1000, 12, 10⟩, ⟨8, 2000, 12, 32⟩] :=
  C1_theorem (fun _ => false) fileC1wit _ (by decide)

/-- A recording holding the same RTP frame (ts 1000, seq 7) twice. -/
def fileC1cex : List Nat :=
  [77, 69, 69, 84, 69, 67, 72, 79, 0, 12, 128, 111, 0, 7, 0, 0, 3, 232, 0, 0, 0, 1,
   77, 69, 69, 84, 69, 67, 72, 79, 0, 12, 128, 111, 0, 7, 0, 0, 3, 232, 0, 0, 0, 1]

/-- C1 fails as stated: on a file holding the same frame twice the parser
returns a chain whose adjacent pair has equal `ts` and equal `seq`, which the
claimed ordering (strict `ts` increase, or seq-ordered tie) rejects. -/
theorem C1_counterexample :
    janus_play_get_frames (fun _ => false) fileC1cex =
      some [⟨7, 1000, 12, 32⟩, ⟨7, 1000, 12, 10⟩] ∧
    ¬ claimOrdered ⟨7, 1000, 12, 32⟩ ⟨7, 1000, 12, 10⟩ := by
  constructor
  · decide
  · decide

/-! ## Offset integrity of the descriptors -/

/-- Framed length of the record at `offset`, read exactly as both passes do
(two big-endian bytes at `offset + 8`). -/
def lenOf (f : List Nat) (offset : Nat) : Nat :=
  ntohs2 (readLenHi 0 (fread f (offset + 8) 2)) (readLenLo 0 (fread f (offset + 8) 2))

/-- A file is a sequence of complete records from `offset` on: each record's
10-byte framing and its declared payload lie entirely within the file. -/
def recordsCompleteB (f : List Nat) : Nat → Nat → Bool
  | 0, offset => decide (f.length ≤ offset)
  | fuel + 1, offset =>
    if offset < f.length then
      decide (offset + 10 ≤ f.length) && decide (offset + 10 + lenOf f offset ≤ f.length) &&
        recordsCompleteB f fuel (offset + 10 + lenOf f offset)
    else true

lemma fread_length (f : List Nat) (pos k : Nat) :
    (fread f pos k).length = min k (f.length - pos) := by
  simp [fread]

lemma readLenHi_eq (old : Nat) (rl : List Nat) (h : 2 ≤ rl.length) :
    readLenHi old rl = rl.getD 0 0 := by
  rw [readLenHi, if_pos (by omega)]

lemma readLenLo_eq (old : Nat) (rl : List Nat) (h : 2 ≤ rl.length) :
    readLenLo old rl = rl.getD 1 0 := by
  rw [readLenLo, if_pos h]

lemma pass2Iter_complete {f : List Nat} (r ft offset : Nat) (st : Pass2State)
    (h8 : offset + 10 ≤ f.length) :
    ∃ st', pass2Iter f r ft offset st = some (offset + 10 + lenOf f offset, st') ∧
      (st'.chain = st.chain ∨
        ∃ s t, st'.chain = insertFrame st.chain ⟨s, t, lenOf f offset, offset + 10⟩) := by
  have hr8 : (fread f offset 8).length = 8 := by rw [fread_length]; omega
  have hrl : 2 ≤ (fread f (offset + 8) 2).length := by rw [fread_length]; omega
  simp only [pass2Iter, hr8]
  have hHi := readLenHi_eq st.lenHi (fread f (offset + 8) 2) hrl
  have hHi0 := readLenHi_eq 0 (fread f (offset + 8) 2) hrl
  have hLo := readLenLo_eq st.lenLo (fread f (offset + 8) 2) hrl
  have hLo0 := readLenLo_eq 0 (fread f (offset + 8) 2) hrl
  have hlen : ntohs2 (readLenHi st.lenHi (fread f (offset + 8) 2))
      (readLenLo st.lenLo (fread f (offset + 8) 2)) = lenOf f offset := by
    rw [hHi, hLo, lenOf, hHi0, hLo0]
  rw [hlen]
  split
  · exact ⟨_, rfl, Or.inl rfl⟩
  · rw [if_neg (by simp)]
    exact ⟨_, rfl, Or.inr ⟨_, _, rfl⟩⟩

lemma pass2Loop_complete (f : List Nat) (r ft : Nat) :
    ∀ (fuel offset : Nat) (st : Pass2State),
      recordsCompleteB f fuel offset = true →
      (∀ p ∈ st.chain, p.offset + p.len ≤ f.length) →
      ∀ p ∈ pass2Loop f r ft fuel offset st, p.offset + p.len ≤ f.length
  | 0, _, _, _, hacc => hacc
  | fuel + 1, offset, st, hc, hacc => by
    rw [pass2Loop]
    split
    · rename_i hoff
      rw [recordsCompleteB, if_pos hoff] at hc
      simp only [Bool.and_eq_true, decide_eq_true_eq] at hc
      obtain ⟨⟨h10, hbound⟩, hrest⟩ := hc
      obtain ⟨st', heq, hch⟩ := pass2Iter_complete r ft offset st h10
      rw [heq]
      apply pass2Loop_complete f r ft fuel _ st' hrest
      intro p hp
      rcases hch with h1 | ⟨s, t, h1⟩
      · exact hacc p (h1 ▸ hp)
      · rw [h1] at hp
        rcases mem_insertFrame hp with h2 | h2
        · rw [h2]; exact hbound
        · exact hacc p h2
    · exact hacc

/-- C3 (amended): on a file whose records are all complete (every record's
declared payload lies within the file), every descriptor emitted by
`janus_play_get_frames` satisfies `offset + len ≤ file_size`.  (As stated the
claim fails on a file whose final record is truncated: the parser still
indexes it.) -/
theorem C3_theorem (infoOk : List Nat → Bool) (f : List Nat)
    (chain : List janus_play_frame_packet)
    (h : janus_play_get_frames infoOk f = some chain)
    (hc : recordsCompleteB f (f.length + 1) 0 = true) :
    ∀ p ∈ chain, p.offset + p.len ≤ f.length := by
  unfold janus_play_get_frames at h
  cases hp : pass1Loop infoOk f (f.length + 1) 0 initPass1 with
  | none => rw [hp] at h; cases h
  | some st1 =>
    rw [hp] at h
    simp only at h
    split at h
    · cases h
    · cases h
      exact pass2Loop_complete f _ _ _ _ _ hc (by simp)

/-- A complete two-frame recording (ts 500 seq 3, ts 1500 seq 4), used to
witness `C3_theorem`. -/
def fileC3wit : List Nat :=
  [77, 69, 69, 84, 69, 67, 72, 79, 0, 12, 128, 111, 0, 3, 0, 0, 1, 244, 0, 0, 0, 1,
   77, 69, 69, 84, 69, 67, 72, 79, 0, 12, 128, 111, 0, 4, 0, 0, 5, 220, 0, 0, 0, 1]

theorem C3_witness :
    (⟨4, 1500, 12, 32⟩ : janus_play_frame_packet).offset +
      (⟨4, 1500, 12, 32⟩ : janus_play_frame_packet).len ≤ fileC3wit.length :=
  C3_theorem (fun _ => false) fileC3wit [⟨3, 500, 12, 10⟩, ⟨4, 1500, 12, 32⟩]
    (by decide) (by decide) ⟨4, 1500, 12, 32⟩ (by decide)

/-- A recording whose second frame record declares 12 payload bytes but is
cut off after 5: the file is 37 bytes long. -/
def fileC3cex : List Nat :=
  [77, 69, 69, 84, 69, 67, 72, 79, 0, 12, 128, 111, 0, 7, 0, 0, 3, 232, 0, 0, 0, 1,
   77, 69, 69, 84, 69, 67, 72, 79, 0, 12, 128, 111, 0, 9, 0]

/-- C3 fails as stated: on the truncated file the parser still emits a
descriptor for the cut-off record, whose `offset + len = 44` exceeds the
37-byte file size (its timestamp is even read from stale buffer bytes). -/
theorem C3_counterexample :
    janus_play_get_frames (fun _ => false) fileC3cex =
      some [⟨7, 1000, 12, 10⟩, ⟨9, 4409423, 12, 32⟩] ∧
    ¬ ∀ p ∈ [(⟨7, 1000, 12, 10⟩ : janus_play_frame_packet), ⟨9, 4409423, 12, 32⟩],
        p.offset + p.len ≤ fileC3cex.length := by
  constructor
  · decide
  · decide

/-! ## Pass-1 reset tracking -/

lemma pass1Step_reset_cases (s : ScanState) (t : Nat) :
    (pass1Step s t).reset = s.reset ∨ (pass1Step s t).reset = t := by
  unfold pass1Step
  split_ifs <;> simp

lemma pass1Iter_reset_seen {infoOk : List Nat → Bool} {f : List Nat} {offset : Nat}
    {st : Pass1State} {o' : Nat} {st' : Pass1State}
    (h : pass1Iter infoOk f offset st = some (o', st'))
    (inv : st.scan.reset = 0 ∨ st.scan.reset ∈ st.seenTs) :
    st'.scan.reset = 0 ∨ st'.scan.reset ∈ st'.seenTs := by
  have step : ∀ t : Nat,
      (pass1Step st.scan t).reset = 0 ∨ (pass1Step st.scan t).reset ∈ st.seenTs ++ [t] := by
    intro t
    rcases pass1Step_reset_cases st.scan t with hr | hr
    · rw [hr]
      rcases inv with h0 | hmem
      · exact Or.inl h0
      · exact Or.inr (List.mem_append_left _ hmem)
    · rw [hr]
      exact Or.inr (List.mem_append_right _ (List.mem_singleton.mpr rfl))
  simp only [pass1Iter] at h
  split at h
  · cases h
  · split at h
    · split at h
      · split at h
        · cases h; exact inv
        · cases h
      · split at h
        · cases h; exact inv
        · cases h; exact step _
    · split at h
      · split at h
        · split at h
          · cases h; exact step _
          · cases h
        · cases h; exact step _
      · cases h

lemma pass1Loop_reset_seen (infoOk : List Nat → Bool) (f : List Nat) :
    ∀ (fuel offset : Nat) (st : Pass1State) (st' : Pass1State),
      pass1Loop infoOk f fuel offset st = some st' →
      (st.scan.reset = 0 ∨ st.scan.reset ∈ st.seenTs) →
      st'.scan.reset = 0 ∨ st'.scan.reset ∈ st'.seenTs
  | 0, _, _, _, h, inv => by cases h; exact inv
  | fuel + 1, offset, st, st', h, inv => by
    rw [pass1Loop] at h
    split at h
    · cases heq : pass1Iter infoOk f offset st with
      | none => rw [heq] at h; cases h
      | some v =>
        obtain ⟨o2, st2⟩ := v
        rw [heq] at h
        exact pass1Loop_reset_seen infoOk f fuel o2 st2 st' h (pass1Iter_reset_seen heq inv)
    · cases h; exact inv

/-- C7 (amended): in pass 1 of `janus_play_get_frames`, once `last_ts` is
nonzero a frame with timestamp `t` sets `reset` to `t` exactly when either a
reset is declared (`t < last_ts` with a drop above 2*10^9) or `t` is a
non-decreasing timestamp below the current `reset`; a smaller out-of-order
timestamp (`t < last_ts`, drop at most 2*10^9) leaves `reset` unchanged even
when `t` is below the nonzero `reset`, so at the end of pass 1 `reset` is one
of the scanned timestamps (or 0), but not necessarily the smallest post-reset
timestamp seen. -/
theorem C7_theorem :
    (∀ (s : ScanState) (t : Nat), s.last_ts ≠ 0 →
      (pass1Step s t).reset =
        if t < s.last_ts then (if 2000000000 < s.last_ts - t then t else s.reset)
        else if t < s.reset then t else s.reset)
    ∧ (∀ (infoOk : List Nat → Bool) (f : List Nat) (st' : Pass1State),
        pass1Loop infoOk f (f.length + 1) 0 initPass1 = some st' →
        st'.scan.reset = 0 ∨ st'.scan.reset ∈ st'.seenTs) := by
  constructor
  · intro s t hlast
    unfold pass1Step
    rw [if_neg hlast]
    split_ifs <;> simp
  · intro infoOk f st' h
    exact pass1Loop_reset_seen infoOk f (f.length + 1) 0 initPass1 st' h (Or.inl rfl)

theorem C7_witness :
    ((pass1Step ⟨5, 10, 3⟩ 4).reset =
      if 4 < 10 then (if 2000000000 < 10 - 4 then 4 else 3) else if 4 < 3 then 4 else 3)
    ∧ (initPass1.scan.reset = 0 ∨ initPass1.scan.reset ∈ initPass1.seenTs) :=
  ⟨C7_theorem.1 ⟨5, 10, 3⟩ 4 (by decide),
   C7_theorem.2 (fun _ => false) [] initPass1 (by decide)⟩

/-- C7 fails as stated: a frame whose timestamp is below the current nonzero
`reset` but also below `last_ts` (a small out-of-order step, drop at most
2*10^9) does not refine `reset`: from scan state `(first_ts 0, last_ts 150,
reset 100)` the timestamp 50 — nonzero reset, 50 < 100 — leaves `reset` at
100 instead of refining it to 50 as the claim requires. -/
theorem C7_counterexample :
    (⟨0, 150, 100⟩ : ScanState).reset ≠ 0 ∧ 50 < (⟨0, 150, 100⟩ : ScanState).reset ∧
    (pass1Step ⟨0, 150, 100⟩ 50).reset = 100 ∧ (100 : Nat) ≠ 50 := by
  refine ⟨by decide, by decide, by decide, by decide⟩

/-! ## Header checks and the handling of info records -/

lemma pass1Iter_hdrCount {infoOk : List Nat → Bool} {f : List Nat} {offset : Nat}
    {st : Pass1State} {o' : Nat} {st' : Pass1State}
    (h : pass1Iter infoOk f offset st = some (o', st'))
    (inv : st.legacyHdr + st.infoHdr ≤ if st.parsed_header then 1 else 0) :
    st'.legacyHdr + st'.infoHdr ≤ if st'.parsed_header then 1 else 0 := by
  simp only [pass1Iter] at h
  split at h
  · cases h
  · split at h
    · split at h
      · split at h
        · cases h
          rename_i hcond _
          rw [if_neg (by simp [hcond.2])] at inv
          simp only [if_pos]
          omega
        · cases h
      · split at h
        · cases h; exact inv
        · cases h; exact inv
    · split at h
      · split at h
        · split at h
          · cases h
            rename_i hcond _
            rw [if_neg (by simp [hcond.2])] at inv
            simp only [if_pos]
            omega
          · cases h
        · cases h; exact inv
      · cases h

lemma pass1Loop_hdrCount (infoOk : List Nat → Bool) (f : List Nat) :
    ∀ (fuel offset : Nat) (st st' : Pass1State),
      pass1Loop infoOk f fuel offset st = some st' →
      (st.legacyHdr + st.infoHdr ≤ if st.parsed_header then 1 else 0) →
      st'.legacyHdr + st'.infoHdr ≤ if st'.parsed_header then 1 else 0
  | 0, _, _, _, h, inv => by cases h; exact inv
  | fuel + 1, offset, st, st', h, inv => by
    rw [pass1Loop] at h
    split at h
    · cases heq : pass1Iter infoOk f offset st with
      | none => rw [heq] at h; cases h
      | some v =>
        obtain ⟨o2, st2⟩ := v
        rw [heq] at h
        exact pass1Loop_hdrCount infoOk f fuel o2 st2 st' h (pass1Iter_hdrCount heq inv)
    · cases h; exact inv

/-- C8 (amended): the legacy-header check and the info-header check of
`janus_play_get_frames` each fire at most once per file (they even fire at
most once combined), and in pass 2 every record of the modern info tag family
(second tag byte `'J'`) is skipped without touching the chain; in pass 1,
however, a subsequent `'J'` record is not skipped: its first payload bytes
are read as an RTP header and fed to the reset scan exactly like a frame
record.  (Subsequent legacy `'E'` records with length at least 12 take the
same RTP path in both passes.) -/
theorem C8_theorem :
    (∀ (infoOk : List Nat → Bool) (f : List Nat) (st' : Pass1State),
        pass1Loop infoOk f (f.length + 1) 0 initPass1 = some st' →
        st'.legacyHdr ≤ 1 ∧ st'.infoHdr ≤ 1)
    ∧ (∀ (f : List Nat) (r ft offset : Nat) (st : Pass2State),
        ((bufWrite st.buf (fread f offset 8)).set 8 0).getD 1 0 = 74 →
        ∃ o' st', pass2Iter f r ft offset st = some (o', st') ∧ st'.chain = st.chain)
    ∧ (∀ (infoOk : List Nat → Bool) (f : List Nat) (offset : Nat) (st : Pass1State),
        st.parsed_header = true →
        (fread f offset 8).length = 8 →
        (bufWrite st.buf (fread f offset 8)).getD 0 0 = 77 →
        (bufWrite st.buf (fread f offset 8)).getD 1 0 = 74 →
        ∃ o' st' t, pass1Iter infoOk f offset st = some (o', st') ∧
          st'.scan = pass1Step st.scan t ∧ st'.seenTs = st.seenTs ++ [t]) := by
  refine ⟨?_, ?_, ?_⟩
  · intro infoOk f st' h
    have := pass1Loop_hdrCount infoOk f (f.length + 1) 0 initPass1 st' h (by simp [initPass1])
    split at this <;> omega
  · intro f r ft offset st h74
    simp only [pass2Iter]
    rw [if_pos (Or.inl h74)]
    exact ⟨_, _, rfl, rfl⟩
  · intro infoOk f offset st hph h8 h77 h74
    simp only [pass1Iter]
    have hcond : ¬((fread f offset 8).length ≠ 8 ∨
        (bufWrite st.buf (fread f offset 8)).getD 0 0 ≠ 77) := by
      push_neg
      exact ⟨h8, h77⟩
    rw [if_neg hcond, if_neg (by rw [h74]; decide), if_pos h74, if_neg (by simp [hph])]
    exact ⟨_, _, _, rfl, rfl, rfl⟩

theorem C8_witness :
    ∃ o' st',
      pass2Iter [] 0 0 0 ⟨[0, 74, 0, 0, 0, 0, 0, 0, 0, 0, 0, 0, 0, 0, 0, 0], 0, 0, []⟩ =
        some (o', st') ∧
      st'.chain = (⟨[0, 74, 0, 0, 0, 0, 0, 0, 0, 0, 0, 0, 0, 0, 0, 0], 0, 0, []⟩ :
        Pass2State).chain :=
  C8_theorem.2.1 [] 0 0 0 _ (by decide)

/-- A single modern-info record (tag `MJ`, length 16) whose payload bytes 4
to 7 read as the timestamp 5. -/
def fileC8cex : List Nat :=
  [77, 74, 0, 0, 0, 0, 0, 0, 0, 16, 128, 111, 0, 1, 0, 0, 0, 5, 0, 0, 0, 9, 0, 0, 0, 0]

/-- The pass-1 state after a header has already been parsed and one RTP
frame with timestamp 2000000100 has been scanned. -/
def stC8cex : Pass1State :=
  { parsed_header := true, scan := ⟨100, 2000000100, 0⟩, buf := List.replicate 16 0,
    lenHi := 0, lenLo := 0, legacyHdr := 1, infoHdr := 0, seenTs := [2000000100] }

/-- C8 fails as stated for pass 1: a modern-info (`'J'`) record occurring
after the header is not skipped by the reset scan — here it overwrites
`last_ts` with 5 and even declares a timestamp reset, so the scan state
changes, while the claim requires the record to be skipped. -/
theorem C8_counterexample :
    (pass1Iter (fun _ => false) fileC8cex 0 stC8cex).map (fun r => r.2.scan) =
      some ⟨100, 5, 5⟩ ∧
    (⟨100, 5, 5⟩ : ScanState) ≠ stC8cex.scan := by
  constructor
  · decide
  · decide

/-! ## Short reads in pass 2 -/

/-- The truncated recording used to exhibit the dead short-read check: its
second frame record declares 12 payload bytes but the file ends after 5. -/
def fileC9 : List Nat :=
  [77, 69, 69, 84, 69, 67, 72, 79, 0, 12, 128, 111, 0, 7, 0, 0, 3, 232, 0, 0, 0, 1,
   77, 69, 69, 84, 69, 67, 72, 79, 0, 12, 128, 111, 0, 9, 0]

/-- C9: the pass-2 guard `bytes < 0` after the 16-byte RTP-header `fread` is
dead code — `fread` returns a byte count, which is never negative — so on an
I/O short read indexing does not stop: on the truncated file the parser keeps
going and indexes the cut-off record from a partially stale buffer instead of
returning only the chain built so far. -/
theorem C9_theorem :
    janus_play_get_frames (fun _ => false) fileC9 =
      some [⟨7, 1000, 12, 10⟩, ⟨9, 4409423, 12, 32⟩] ∧
    ∀ (f : List Nat) (pos : Nat), ¬ (((fread f pos 16).length : Int) < 0) := by
  refine ⟨by decide, ?_⟩
  intro f pos
  omega

/-! ## The audio sequence-reset branch -/

/-- A continuity context in the state left by the start of a playout
(`a_seq_reset` set), with distinct audio and video timestamp state. -/
def ctxC4 : janus_rtp_switching_context :=
  { a_last_ssrc := 42, a_last_ts := 100, a_base_ts := 0, a_base_ts_prev := 7, a_prev_ts := 0,
    a_last_seq := 20, a_base_seq := 0, a_base_seq_prev := 0, a_prev_seq := 0, a_last_time := 0,
    a_seq_reset := true, a_new_ssrc := false,
    v_last_ssrc := 0, v_last_ts := 500, v_base_ts := 0, v_base_ts_prev := 9, v_prev_ts := 0,
    v_last_seq := 0, v_base_seq := 0, v_base_seq_prev := 0, v_prev_seq := 0, v_last_time := 0,
    v_seq_reset := true, v_new_ssrc := false }

/-- An audio packet whose SSRC matches the context (so only the seq-reset
branch fires). -/
def hdrC4 : janus_rtp_header :=
  { type := 111, seq_number := 1000, timestamp := 5000, ssrc := 42 }

/-- C4: on an audio packet with `a_seq_reset` set the code clears the flag
and updates `a_base_seq_prev`/`a_base_seq` as the claim says, but the
timestamp bump goes to the video field: `v_base_ts_prev` becomes
`v_last_ts + 2000` (here 2500) while `a_base_ts_prev` stays untouched (7,
not `a_last_ts + 2000 = 2100`) — the copy-paste slip the spec flags. -/
theorem C4_theorem :
    ((janus_rtp_header_update2 hdrC4 ctxC4 false 960 123456).2.a_seq_reset = false) ∧
    ((janus_rtp_header_update2 hdrC4 ctxC4 false 960 123456).2.a_base_seq_prev =
      ctxC4.a_last_seq) ∧
    ((janus_rtp_header_update2 hdrC4 ctxC4 false 960 123456).2.a_base_seq =
      hdrC4.seq_number) ∧
    ((janus_rtp_header_update2 hdrC4 ctxC4 false 960 123456).2.v_base_ts_prev =
      u32 ((ctxC4.v_last_ts : Int) + 2000)) ∧
    ((janus_rtp_header_update2 hdrC4 ctxC4 false 960 123456).2.a_base_ts_prev =
      ctxC4.a_base_ts_prev) ∧
    ctxC4.a_base_ts_prev ≠ u32 ((ctxC4.a_last_ts : Int) + 2000) := by
  refine ⟨by decide, by decide, by decide, by decide, by decide, by decide⟩

/-! ## The reference-time advance of the playout loop -/

/-- C6 fails as stated: with `abefore = (0, 0)` and a due interval of exactly
10^6 µs the update yields `(1, -1)` — the advance is 999999 µs, one short of
the due interval, and `tv_usec` is negative, outside `[0, 10^6)`. -/
theorem C6_counterexample :
    janus_play_advance_abefore 0 0 1000000 = (1, -1) ∧
    ¬ ((1 : Int) * 1000000 + (-1) = 0 * 1000000 + 0 + 1000000 ∧
       (0 : Int) ≤ -1 ∧ (-1 : Int) < 1000000) := by
  refine ⟨by decide, by decide⟩

/-- C6 (amended): whenever the due interval is below 10^6 µs (an audio gap of
less than one second), `abefore` advances by exactly the due interval, with
the microsecond field carried into seconds and landing in the closed interval
`[0, 10^6]` (the carry test is `> 10^6`, so exactly 10^6 is representable);
for due intervals of a second or more the update falls short by
`tsDiff / 10^6` microseconds and can drive `tv_usec` negative. -/
theorem C6_theorem (sec usec tsDiff : Int) (husec0 : 0 ≤ usec) (husec : usec < 1000000)
    (htd0 : 0 ≤ tsDiff) (htd : tsDiff < 1000000) :
    (janus_play_advance_abefore sec usec tsDiff).1 * 1000000 +
        (janus_play_advance_abefore sec usec tsDiff).2 =
      sec * 1000000 + usec + tsDiff ∧
    0 ≤ (janus_play_advance_abefore sec usec tsDiff).2 ∧
    (janus_play_advance_abefore sec usec tsDiff).2 ≤ 1000000 := by
  have h1 : tsDiff % 1000000 = tsDiff := Int.emod_eq_of_lt htd0 htd
  have h2 : tsDiff / 1000000 = 0 := Int.ediv_eq_zero_of_lt htd0 htd
  simp only [janus_play_advance_abefore, h1, h2, lt_self_iff_false, if_false]
  split_ifs <;> exact ⟨by omega, by omega, by omega⟩

theorem C6_witness :
    (janus_play_advance_abefore 2 999999 5000).1 * 1000000 +
        (janus_play_advance_abefore 2 999999 5000).2 =
      2 * 1000000 + 999999 + 5000 ∧
    0 ≤ (janus_play_advance_abefore 2 999999 5000).2 ∧
    (janus_play_advance_abefore 2 999999 5000).2 ≤ 1000000 :=
  C6_theorem 2 999999 5000 (by decide) (by decide) (by decide) (by decide)

/-! ## Event payloads -/

/-- C10 fails as stated: the source strings all contain a space after the
colon, so the emitted payloads are not byte-for-byte the claimed JSON
strings. -/
theorem C10_counterexample :
    janus_play_playout_events false ≠
      ["\x7b\"play\":\"start\"\x7d", "\x7b\"play\":\"ended\"\x7d"] ∧
    janus_play_playout_events true ≠
      ["\x7b\"play\":\"start\"\x7d", "\x7b\"play\":\"stopped\"\x7d"] := by
  refine ⟨by decide, by decide⟩

/-- C10 (amended): one successful playout run pushes exactly two events —
`{"play": "start"}` before the loop and, at loop exit, exactly one terminal
event, `{"play": "stopped"}` when the shared stop flag was set and
`{"play": "ended"}` otherwise; these three strings (each with a space after
the colon) are the only payloads ever emitted. -/
theorem C10_theorem :
    ∀ b, janus_play_playout_events b =
      ["\x7b\"play\": \"start\"\x7d",
       if b then "\x7b\"play\": \"stopped\"\x7d" else "\x7b\"play\": \"ended\"\x7d"] := by
  intro b
  cases b <;> rfl

/-! ## Timestamp lifting across a reset -/

lemma chain'_lt_head_le {a : Nat} {l : List Nat} (h : List.Chain' (· < ·) (a :: l)) :
    ∀ x ∈ a :: l, a ≤ x := by
  intro x hx
  rcases List.mem_cons.mp hx with rfl | hx
  · exact Nat.le_refl x
  · exact Nat.le_of_lt (List.rel_of_pairwise_cons (List.chain'_iff_pairwise.mp h) hx)

lemma pass1_foldl_incr : ∀ (l : List Nat) (s : ScanState),
    0 < s.last_ts → s.reset ≤ s.last_ts → List.Chain' (· < ·) (s.last_ts :: l) →
    l.foldl pass1Step s = ⟨s.first_ts, l.getLastD s.last_ts, s.reset⟩
  | [], s, _, _, _ => rfl
  | t :: l, s, h0, hr, hc => by
    obtain ⟨hlt, hc'⟩ := List.chain'_cons.mp hc
    rw [List.foldl_cons]
    have hstep : pass1Step s t = ⟨s.first_ts, t, s.reset⟩ := by
      unfold pass1Step
      rw [if_neg (by omega), if_neg (by omega), if_neg (by omega)]
    rw [hstep,
      pass1_foldl_incr l ⟨s.first_ts, t, s.reset⟩ (by show 0 < t; omega)
        (by show s.reset ≤ t; omega) hc',
      List.getLastD_cons]

lemma map_eq_of_forall {f g : Nat → Nat} :
    ∀ {l : List Nat}, (∀ a ∈ l, f a = g a) → l.map f = l.map g :=
  fun h => List.map_congr_left h

/-- C2: if pass 1 saw no reset, pass-2 timestamps are the raw 32-bit values;
with a reset, a raw timestamp above `first_ts` is kept and one at or below it
is lifted by 2^32.  For a recording whose raw timestamps rise strictly (first
one above 10^6), then reset once — a drop of more than 2*10^9 — to small
values (all at most `first_ts = first - 10^6`, and positive) that rise again,
pass 1 ends with `reset` equal to the first post-reset timestamp and the
emitted 64-bit `ts` sequence is strictly monotonic across the boundary. -/
theorem C2_theorem (r0 p0 : Nat) (rest ptail : List Nat)
    (hpre : List.Chain' (· < ·) (r0 :: rest))
    (hr0 : 1000000 < r0)
    (hbound : ∀ r ∈ r0 :: rest, r < 4294967296)
    (hpost : List.Chain' (· < ·) (p0 :: ptail))
    (hsmall : ∀ q ∈ p0 :: ptail, q ≤ r0 - 1000000)
    (hdrop : 2000000000 < rest.getLastD r0 - p0)
    (hp0 : 0 < p0) :
    (((r0 :: rest) ++ p0 :: ptail).foldl pass1Step ⟨0, 0, 0⟩).reset = p0 ∧
    (((r0 :: rest) ++ p0 :: ptail).foldl pass1Step ⟨0, 0, 0⟩).first_ts = r0 - 1000000 ∧
    (∀ r ∈ r0 :: rest, computeTs p0 (r0 - 1000000) r = r) ∧
    (∀ q ∈ p0 :: ptail, computeTs p0 (r0 - 1000000) q = 4294967296 + q) ∧
    List.Chain' (· < ·)
      (((r0 :: rest) ++ p0 :: ptail).map (computeTs p0 (r0 - 1000000))) := by
  have hstep0 : pass1Step ⟨0, 0, 0⟩ r0 = ⟨r0 - 1000000, r0, 0⟩ := by
    unfold pass1Step
    rw [if_pos rfl, if_pos hr0]
  have hpreFold : (r0 :: rest).foldl pass1Step ⟨0, 0, 0⟩ =
      ⟨r0 - 1000000, rest.getLastD r0, 0⟩ := by
    rw [List.foldl_cons, hstep0,
      pass1_foldl_incr rest ⟨r0 - 1000000, r0, 0⟩ (by show 0 < r0; omega)
        (by show 0 ≤ r0; omega) hpre]
  have hstepP : pass1Step ⟨r0 - 1000000, rest.getLastD r0, 0⟩ p0 =
      ⟨r0 - 1000000, p0, p0⟩ := by
    unfold pass1Step
    rw [if_neg (by show ¬(rest.getLastD r0 = 0); omega),
      if_pos (by show p0 < rest.getLastD r0; omega),
      if_pos (by show 2000000000 < rest.getLastD r0 - p0; exact hdrop)]
  have hfold : ((r0 :: rest) ++ p0 :: ptail).foldl pass1Step ⟨0, 0, 0⟩ =
      ⟨r0 - 1000000, ptail.getLastD p0, p0⟩ := by
    rw [List.foldl_append, hpreFold, List.foldl_cons, hstepP,
      pass1_foldl_incr ptail ⟨r0 - 1000000, p0, p0⟩ hp0 (by simp) hpost]
  have hcpre : ∀ r ∈ r0 :: rest, computeTs p0 (r0 - 1000000) r = r := by
    intro r hr
    have h1 : r0 ≤ r := chain'_lt_head_le hpre r hr
    unfold computeTs
    rw [if_neg (by omega), if_pos (by omega)]
  have hcpost : ∀ q ∈ p0 :: ptail, computeTs p0 (r0 - 1000000) q = 4294967296 + q := by
    intro q hq
    have h1 := hsmall q hq
    unfold computeTs
    rw [if_neg (by omega), if_neg (by omega)]
  refine ⟨by rw [hfold], by rw [hfold], hcpre, hcpost, ?_⟩
  rw [List.map_append, List.chain'_append]
  have hmpre : (r0 :: rest).map (computeTs p0 (r0 - 1000000)) = r0 :: rest := by
    rw [map_eq_of_forall hcpre]
    simp
  have hmpost : (p0 :: ptail).map (computeTs p0 (r0 - 1000000)) =
      (p0 :: ptail).map (fun q => 4294967296 + q) := map_eq_of_forall hcpost
  refine ⟨by rw [hmpre]; exact hpre, ?_, ?_⟩
  · rw [hmpost, List.chain'_map]
    exact hpost.imp fun a b h => by omega
  · intro x hx y hy
    rw [hmpre] at hx
    rw [hmpost] at hy
    simp only [List.map_cons, List.head?_cons, Option.mem_def, Option.some.injEq] at hy
    obtain ⟨hne, hxl⟩ := List.mem_getLast?_eq_getLast hx
    have hxmem : x ∈ r0 :: rest := hxl ▸ List.getLast_mem hne
    have := hbound x hxmem
    omega

theorem C2_witness :
    ((([3000000000] ++ [100, 1060]).foldl pass1Step ⟨0, 0, 0⟩).reset = 100 ∧
    (([3000000000] ++ [100, 1060]).foldl pass1Step ⟨0, 0, 0⟩).first_ts =
      3000000000 - 1000000 ∧
    (∀ r ∈ [3000000000], computeTs 100 (3000000000 - 1000000) r = r) ∧
    (∀ q ∈ [100, 1060], computeTs 100 (3000000000 - 1000000) q = 4294967296 + q) ∧
    List.Chain' (· < ·)
      (([3000000000] ++ [100, 1060]).map (computeTs 100 (3000000000 - 1000000)))) :=
  C2_theorem 3000000000 100 [] [1060]
    (List.chain'_singleton _) (by decide) (by decide)
    (List.chain'_cons.mpr ⟨by norm_num, List.chain'_singleton _⟩)
    (by decide) (by decide) (by decide)

/-! ## Sequence-number continuity of the rewriter -/

lemma update2_audio_formula (h : janus_rtp_header) (c : janus_rtp_switching_context)
    ( step : Int) (now : Nat) :
    ((janus_rtp_header_update2 h c false step now).2).a_last_seq =
      u16 (((h.seq_number : Int) -
        (((janus_rtp_header_update2 h c false step now).2).a_base_seq : Int)) +
        (((janus_rtp_header_update2 h c false step now).2).a_base_seq_prev : Int) + 1) := rfl

lemma update2_audio_steady (h : janus_rtp_header) (c : janus_rtp_switching_context)
    ( step : Int) (now : Nat) (hssrc : h.ssrc = c.a_last_ssrc) (hres : c.a_seq_reset = false) :
    ((janus_rtp_header_update2 h c false step now).2).a_base_seq = c.a_base_seq ∧
    ((janus_rtp_header_update2 h c false step now).2).a_base_seq_prev = c.a_base_seq_prev ∧
    ((janus_rtp_header_update2 h c false step now).2).a_last_ssrc = c.a_last_ssrc ∧
    ((janus_rtp_header_update2 h c false step now).2).a_seq_reset = false ∧
    ((janus_rtp_header_update2 h c false step now).2).a_last_seq =
      u16 ((h.seq_number : Int) - (c.a_base_seq : Int) + (c.a_base_seq_prev : Int) + 1) := by
  simp [janus_rtp_header_update2, hssrc, hres]

lemma update2_audio_first (h : janus_rtp_header) (c : janus_rtp_switching_context)
    ( step : Int) (now : Nat) :
    ((janus_rtp_header_update2 h c false step now).2).a_last_ssrc = h.ssrc ∧
    ((janus_rtp_header_update2 h c false step now).2).a_seq_reset = false := by
  by_cases h1 : h.ssrc = c.a_last_ssrc <;>
    by_cases h2 : c.a_seq_reset = true <;>
      by_cases h3 : 0 < c.a_last_time <;>
        simp [janus_rtp_header_update2, h1, h2, h3]

lemma u16_succ (B P q : Nat) :
    u16 ((((q + 1) % 65536 : Nat) : Int) - (B : Int) + (P : Int) + 1) =
      (u16 ((q : Int) - (B : Int) + (P : Int) + 1) + 1) % 65536 := by
  simp only [u16]
  push_cast
  omega

lemma u16_mod_arg (B P q : Nat) :
    u16 (((q % 65536 : Nat) : Int) - (B : Int) + (P : Int) + 1) =
      u16 ((q : Int) - (B : Int) + (P : Int) + 1) := by
  simp only [u16]
  push_cast
  omega

lemma runAudio_consecutive (S pt : Nat) :
    ∀ (n q : Nat) (tsf nowf : Nat → Nat) (c : janus_rtp_switching_context),
      c.a_last_ssrc = S → c.a_seq_reset = false →
      c.a_last_seq = u16 ((q : Int) - (c.a_base_seq : Int) + (c.a_base_seq_prev : Int) + 1) →
      List.Chain' (fun x y => y = (x + 1) % 65536)
        (c.a_last_seq :: runAudio c (consecutivePackets S pt tsf nowf (q + 1) n))
  | 0, q, tsf, nowf, c, _, _, _ => by
    simp [consecutivePackets, runAudio]
  | n + 1, q, tsf, nowf, c, hssrc, hres, hseq => by
    rw [consecutivePackets, runAudio]
    obtain ⟨hB, hP, hS, hR, hL⟩ :=
      update2_audio_steady ⟨pt, (q + 1) % 65536, tsf 0, S⟩ c 960 (nowf 0)
        (by show S = c.a_last_ssrc; exact hssrc.symm) hres
    refine List.chain'_cons.mpr ⟨?_, ?_⟩
    · rw [hseq, hL]
      exact u16_succ c.a_base_seq c.a_base_seq_prev q
    · have hseq2 : ((janus_rtp_header_update2 ⟨pt, (q + 1) % 65536, tsf 0, S⟩ c false 960
          (nowf 0)).2).a_last_seq =
          u16 ((((q + 1 : Nat)) : Int) -
            (((janus_rtp_header_update2 ⟨pt, (q + 1) % 65536, tsf 0, S⟩ c false 960
              (nowf 0)).2).a_base_seq : Int) +
            (((janus_rtp_header_update2 ⟨pt, (q + 1) % 65536, tsf 0, S⟩ c false 960
              (nowf 0)).2).a_base_seq_prev : Int) + 1) := by
        rw [hB, hP, hL]
        exact u16_mod_arg c.a_base_seq c.a_base_seq_prev (q + 1)
      exact runAudio_consecutive S pt n (q + 1) (fun i => tsf (i + 1)) (fun i => nowf (i + 1))
        _ (hS.trans hssrc) hR hseq2

/-- C5: in a single playback where one direction's packets all carry the
same SSRC and are fed to `janus_rtp_header_update2` with consecutive input
sequence numbers, every rewritten output sequence number equals
`(raw_seq - base_seq) + base_seq_prev + 1` (reduced mod 2^16, with the base
fields current at rewrite time), and the outputs form `s, s+1, s+2, ...`
mod 2^16 with no gaps — from any starting context, including one with
`a_seq_reset` pending. -/
theorem C5_theorem :
    (∀ (h : janus_rtp_header) (c : janus_rtp_switching_context) ( step : Int) (now : Nat),
      ((janus_rtp_header_update2 h c false step now).2).a_last_seq =
        u16 (((h.seq_number : Int) -
          (((janus_rtp_header_update2 h c false step now).2).a_base_seq : Int)) +
          (((janus_rtp_header_update2 h c false step now).2).a_base_seq_prev : Int) + 1))
    ∧ (∀ (S pt q0 n : Nat) (tsf nowf : Nat → Nat) (c : janus_rtp_switching_context),
        List.Chain' (fun x y => y = (x + 1) % 65536)
          (runAudio c (consecutivePackets S pt tsf nowf q0 n))) := by
  refine ⟨fun h c step now => update2_audio_formula h c step now, ?_⟩
  intro S pt q0 n tsf nowf c
  cases n with
  | zero => simp [consecutivePackets, runAudio]
  | succ n =>
    rw [consecutivePackets, runAudio]
    obtain ⟨hS, hR⟩ := update2_audio_first ⟨pt, q0 % 65536, tsf 0, S⟩ c 960 (nowf 0)
    have hL := update2_audio_formula ⟨pt, q0 % 65536, tsf 0, S⟩ c 960 (nowf 0)
    have hseq : ((janus_rtp_header_update2 ⟨pt, q0 % 65536, tsf 0, S⟩ c false 960
        (nowf 0)).2).a_last_seq =
        u16 ((q0 : Int) -
          (((janus_rtp_header_update2 ⟨pt, q0 % 65536, tsf 0, S⟩ c false 960
            (nowf 0)).2).a_base_seq : Int) +
          (((janus_rtp_header_update2 ⟨pt, q0 % 65536, tsf 0, S⟩ c false 960
            (nowf 0)).2).a_base_seq_prev : Int) + 1) := by
      rw [hL]
      exact u16_mod_arg _ _ q0
    exact runAudio_consecutive S pt n q0 (fun i => tsf (i + 1)) (fun i => nowf (i + 1)) _ hS hR hseq

end JanusPlay
